import Mathlib

/-!
Shallow embedding of the visit-ingestion and real-time aggregation/broadcast
subsystem of `src/server.js` (a website-analytics micro SaaS).

The embedding models:
* the `visitor_logs` table rows (`VisitLogEntry`) and `sites` table rows,
* the aggregation performed inline in the `GET /track` handler
  (`totalVisits`, `uniqueVisitors`, the `countryStats` object built by
  `forEach` over the rows),
* the handler itself (`trackVisit`): validation, read of the existing
  entry, increment, upsert keyed on `(site_id, client_id)`, re-read of all
  rows of the site, aggregate, site-counter update, broadcast to the
  WebSocket subscribers of the site, response,
* the WebSocket `connection` / `close` handlers over the in-memory
  `connections` registry,
* failure injection for each storage call (each `await supabase...` that
  the handler checks and `throw`s on),
* an interleaving semantics for concurrent `/track` requests, whose
  suspension points are the two storage calls of the read-increment-upsert
  sequence.

JavaScript `Map`/`Set`/object values are modelled as association lists and
duplicate-free lists; machine integers are `Nat` (visit counts only grow by
`+ 1` from `0`).
-/

/-- A row of the `visitor_logs` table. -/
structure VisitLogEntry where
  site_id : String
  client_id : String
  country : String
  last_visit : Nat
  visit_count : Nat
deriving DecidableEq, Repr

/-- A row of the `sites` table (the columns the core touches). -/
structure SiteRow where
  site_id : String
  total_visitors : Nat
  unique_visitors : Nat
deriving DecidableEq, Repr

/-- The durable store: the two tables the `/track` handler touches. -/
structure Store where
  visitor_logs : List VisitLogEntry
  sites : List SiteRow
deriving DecidableEq, Repr

/-- A WebSocket transport handle: an identity plus its `readyState` at the
moment of interest.  `WebSocket.OPEN` is `1`. -/
structure Conn where
  id : Nat
  readyState : Nat
deriving DecidableEq, Repr

/-- `WebSocket.OPEN`. -/
def WS_OPEN : Nat := 1

/-- JavaScript truthiness of an optional query parameter: `null`/absent and
the empty string are falsy (`if (!siteId || ...)`). -/
def truthy : Option String → Bool
  | none => false
  | some s => !(s == "")

/-- The `.select().eq('site_id',…).eq('client_id',…).single()` read of the
existing visitor-log entry for a `(site, client)` pair. -/
def getVisitLog (logs : List VisitLogEntry) (siteId clientId : String) :
    Option VisitLogEntry :=
  logs.find? (fun l => l.site_id == siteId && l.client_id == clientId)

/-- The `.upsert([...], { onConflict: 'site_id,client_id' })` call: replace
the row with the same `(site_id, client_id)` key if present, insert
otherwise. -/
def upsertLog (logs : List VisitLogEntry) (e : VisitLogEntry) :
    List VisitLogEntry :=
  if logs.any (fun l => l.site_id == e.site_id && l.client_id == e.client_id) then
    logs.map (fun l =>
      if l.site_id == e.site_id && l.client_id == e.client_id then e else l)
  else
    logs ++ [e]

/-- The `.select('client_id, visit_count, country').eq('site_id', siteId)`
re-read of all rows of a site. -/
def listLogs (logs : List VisitLogEntry) (siteId : String) :
    List VisitLogEntry :=
  logs.filter (fun l => l.site_id == siteId)

/-- The `.from('sites').update({ total_visitors, unique_visitors }).eq('site_id', siteId)`
counter write. -/
def updateSiteCounters (sites : List SiteRow) (siteId : String)
    (total unique : Nat) : List SiteRow :=
  sites.map (fun s =>
    if s.site_id == siteId then
      { s with total_visitors := total, unique_visitors := unique }
    else s)

/-- JavaScript `Set.prototype.add` on a duplicate-free list. -/
def setAdd (s : List String) (x : String) : List String :=
  if x ∈ s then s else s ++ [x]

/-- `stats.reduce((sum, log) => sum + (log.visit_count || 0), 0)`. -/
def totalVisits (stats : List VisitLogEntry) : Nat :=
  stats.foldl (fun sum log => sum + log.visit_count) 0

/-- `new Set(stats.map(s => s.client_id)).size`. -/
def uniqueVisitors (stats : List VisitLogEntry) : Nat :=
  ((stats.map (fun s => s.client_id)).foldl setAdd []).length

/-- One value of the `countryStats` object while it is being built:
a running total and the `Set` of client ids seen so far. -/
structure CountryAcc where
  total : Nat
  unique : List String
deriving DecidableEq, Repr

/-- Object lookup `countryStats[log.country]` on the association list. -/
def objGet (m : List (String × CountryAcc)) (k : String) : Option CountryAcc :=
  (m.find? (fun p => p.1 == k)).map (fun p => p.2)

/-- Object update `countryStats[k] = v`: overwrite in place if the key is
present, append otherwise. -/
def objSet (m : List (String × CountryAcc)) (k : String) (v : CountryAcc) :
    List (String × CountryAcc) :=
  if m.any (fun p => p.1 == k) then
    m.map (fun p => if p.1 == k then (k, v) else p)
  else
    m ++ [(k, v)]

/-- The body of the `stats.forEach(log => ...)` that builds `countryStats`:
initialise the country's slot if missing, then add the row's visit count and
client id. -/
def countryStep (acc : List (String × CountryAcc)) (log : VisitLogEntry) :
    List (String × CountryAcc) :=
  let cur := (objGet acc log.country).getD ⟨0, []⟩
  objSet acc log.country
    ⟨cur.total + log.visit_count, setAdd cur.unique log.client_id⟩

/-- The full `countryStats` object computed from the rows of a site. -/
def countryStats (stats : List VisitLogEntry) : List (String × CountryAcc) :=
  stats.foldl countryStep []

/-- `countryStats[c].total`, with `0` for an absent country. -/
def countryTotal (stats : List VisitLogEntry) (c : String) : Nat :=
  ((objGet (countryStats stats) c).getD ⟨0, []⟩).total

/-- `countryStats[c].unique.size`, with `0` for an absent country. -/
def countryUnique (stats : List VisitLogEntry) (c : String) : Nat :=
  ((objGet (countryStats stats) c).getD ⟨0, []⟩).unique.length

/-- The in-memory `connections` Map: site identifier → `Set` of WebSocket
handles. -/
abbrev Registry := List (String × List Conn)

/-- `connections.get(siteId)` (with `connections.has` as `isSome`). -/
def regGet (r : Registry) (s : String) : Option (List Conn) :=
  (r.find? (fun p => p.1 == s)).map (fun p => p.2)

/-- `connections.set(siteId, v)`. -/
def regSet (r : Registry) (s : String) (v : List Conn) : Registry :=
  if r.any (fun p => p.1 == s) then
    r.map (fun p => if p.1 == s then (s, v) else p)
  else
    r ++ [(s, v)]

/-- `Set.prototype.add` on a set of WebSocket handles. -/
def connSetAdd (set : List Conn) (ws : Conn) : List Conn :=
  if ws ∈ set then set else set ++ [ws]

/-- `Set.prototype.delete` on a set of WebSocket handles. -/
def connSetDelete (set : List Conn) (ws : Conn) : List Conn :=
  set.filter (fun x => !(x == ws))

/-- The `wss.on('connection')` handler: if the URL carried a (truthy)
`siteId`, ensure the site has a subscriber set and add the socket to it. -/
def onConnection (conns : Registry) (sid : Option String) (ws : Conn) :
    Registry :=
  if truthy sid then
    let s := sid.getD ""
    let conns1 := if (regGet conns s).isSome then conns else conns ++ [(s, [])]
    regSet conns1 s (connSetAdd ((regGet conns1 s).getD []) ws)
  else conns

/-- The `ws.on('close')` handler: if a (truthy) `siteId` was captured and the
site has a subscriber set, delete the socket from it. -/
def onCloseWs (conns : Registry) (sid : Option String) (ws : Conn) :
    Registry :=
  if truthy sid then
    let s := sid.getD ""
    match regGet conns s with
    | some set => regSet conns s (connSetDelete set ws)
    | none => conns
  else conns

/-- The `stats` object of the broadcast wire message, after the `unique`
`Set`s have been converted to their sizes. -/
structure WireStats where
  total : Nat
  unique : Nat
  country : String
  countryStats : List (String × Nat × Nat)
deriving DecidableEq, Repr

/-- The `countryStats` object as it appears on the wire:
country ↦ (total, size of the `unique` set). -/
def countryStatsWire (stats : List VisitLogEntry) : List (String × Nat × Nat) :=
  (countryStats stats).map (fun p => (p.1, p.2.total, p.2.unique.length))

/-- One entry of the serialized `countryStats` object. -/
def serializeCountryEntry (p : String × Nat × Nat) : String :=
  "\"" ++ p.1 ++ "\":\x7b\"total\":" ++ toString p.2.1 ++
    ",\"unique\":" ++ toString p.2.2 ++ "\x7d"

/-- `JSON.stringify({ type: 'update', stats: {...} })`: the single wire
message built before the fan-out loop. -/
def serializeUpdate (w : WireStats) : String :=
  "\x7b\"type\":\"update\",\"stats\":\x7b\"total\":" ++ toString w.total ++
    ",\"unique\":" ++ toString w.unique ++
    ",\"country\":\"" ++ w.country ++ "\"" ++
    ",\"countryStats\":\x7b" ++
    String.intercalate "," (w.countryStats.map serializeCountryEntry) ++
    "\x7d\x7d\x7d"

/-- The four storage calls of the `/track` handler, in program order. -/
inductive StorageOp
  | readExisting
  | upsertOp
  | listOp
  | counterUpdate
deriving DecidableEq, Repr

/-- The JSON body of a successful `/track` response. -/
structure RespStats where
  total : Nat
  unique : Nat
  countryStats : List (String × Nat × Nat)
deriving DecidableEq, Repr

deriving instance DecidableEq for Except

/-- Outcome of one `/track` request: the store afterwards, the payloads
handed to subscriber sockets, and the HTTP response (error message on a 500,
stats body on success). -/
structure TrackResult where
  store : Store
  sends : List (Conn × String)
  response : Except String RespStats
deriving DecidableEq, Repr

/-- The `GET /track` handler, with failure injection: `fail op = true` makes
the corresponding storage call return an error, which the handler checks and
`throw`s to its `catch` block (a 500 response, modelled as `.error`). -/
def trackVisitF (fail : StorageOp → Bool) (st : Store) (conns : Registry)
    (siteId clientId country : Option String) (now : Nat) : TrackResult :=
  if !(truthy siteId) || !(truthy clientId) || !(truthy country) then
    ⟨st, [], .error "Missing required parameters"⟩
  else
    let s := siteId.getD ""
    let c := clientId.getD ""
    let co := country.getD ""
    if fail .readExisting then ⟨st, [], .error "storage read failed"⟩ else
    let existingVisits := getVisitLog st.visitor_logs s c
    let newVisitCount := (match existingVisits with
      | some e => e.visit_count
      | none => 0) + 1
    if fail .upsertOp then ⟨st, [], .error "storage upsert failed"⟩ else
    let logs1 := upsertLog st.visitor_logs ⟨s, c, co, now, newVisitCount⟩
    if fail .listOp then
      ⟨⟨logs1, st.sites⟩, [], .error "storage select failed"⟩
    else
    let stats := listLogs logs1 s
    let tv := totalVisits stats
    let uv := uniqueVisitors stats
    if fail .counterUpdate then
      ⟨⟨logs1, st.sites⟩, [], .error "storage update failed"⟩
    else
    let sites1 := updateSiteCounters st.sites s tv uv
    let cw := countryStatsWire stats
    let sends :=
      match regGet conns s with
      | none => []
      | some set =>
          let updateData := serializeUpdate ⟨tv, uv, co, cw⟩
          (set.filter (fun cl => cl.readyState == WS_OPEN)).map
            (fun cl => (cl, updateData))
    ⟨⟨logs1, sites1⟩, sends, .ok ⟨tv, uv, cw⟩⟩

/-- The `GET /track` handler with every storage call succeeding. -/
def trackVisit (st : Store) (conns : Registry)
    (siteId clientId country : Option String) (now : Nat) : TrackResult :=
  trackVisitF (fun _ => false) st conns siteId clientId country now

/-- Progress of one in-flight `/track` request through its
read-increment-upsert sequence.  The two storage `await`s are its suspension
points: the read of the existing count, and the upsert of the incremented
count.  The handler holds no lock between them. -/
inductive VisitPhase
  | toRead
  | toWrite (captured : Nat)
  | finished
deriving DecidableEq, Repr

/-- One in-flight `/track` request (its inputs plus its progress). -/
structure VisitTask where
  siteId : String
  clientId : String
  country : String
  now : Nat
  phase : VisitPhase
deriving DecidableEq, Repr

/-- Run one suspension-point-delimited step of a task against the
`visitor_logs` table: the read captures `existingVisits?.visit_count || 0`;
the write upserts the captured value plus one. -/
def stepTask (logs : List VisitLogEntry) (t : VisitTask) :
    List VisitLogEntry × VisitTask :=
  match t.phase with
  | .toRead =>
      let captured := match getVisitLog logs t.siteId t.clientId with
        | some e => e.visit_count
        | none => 0
      (logs, { t with phase := .toWrite captured })
  | .toWrite captured =>
      (upsertLog logs ⟨t.siteId, t.clientId, t.country, t.now, captured + 1⟩,
        { t with phase := .finished })
  | .finished => (logs, t)

/-- Execute concurrent `/track` requests under a schedule: at each step the
scheduler picks (by index) which request runs until its next suspension
point.  Indices past the task list are no-ops. -/
def runSched (logs : List VisitLogEntry) (tasks : List VisitTask) :
    List Nat → List VisitLogEntry × List VisitTask
  | [] => (logs, tasks)
  | i :: rest =>
      match tasks.get? i with
      | none => runSched logs tasks rest
      | some t =>
          let p := stepTask logs t
          runSched p.1 (tasks.set i p.2) rest

/-- A fresh `/track` request for `(siteId, clientId, country)`. -/
def freshVisit (siteId clientId country : String) (now : Nat) : VisitTask :=
  ⟨siteId, clientId, country, now, .toRead⟩

/-- The whole in-memory state of the server process: the module-level
`visitors` Map and `sites` Set (declared at the top of `server.js`), the
`connections` registry, and the external store it talks to. -/
structure ServerState where
  visitors : List (String × Nat)
  sites : List String
  connections : Registry
  store : Store
deriving DecidableEq, Repr

/-- The request handlers and connection events of `server.js` that touch
state.  `getSites`, `getVisitors` and `getCountryStats` are the read-only
endpoints; `newSite` is `POST /new-site` (inserting a fresh site row). -/
inductive ServerOp
  | track (siteId clientId country : Option String) (now : Nat)
  | wsConnect (sid : Option String) (ws : Conn)
  | wsClose (sid : Option String) (ws : Conn)
  | newSite (sid : String)
  | getSites
  | getVisitors
  | getCountryStats (sid : String)
deriving DecidableEq, Repr

/-- Apply one handler/event to the server state. -/
def applyOp (st : ServerState) : ServerOp → ServerState
  | .track siteId clientId country now =>
      let r := trackVisit st.store st.connections siteId clientId country now
      { st with store := r.store }
  | .wsConnect sid ws =>
      { st with connections := onConnection st.connections sid ws }
  | .wsClose sid ws =>
      { st with connections := onCloseWs st.connections sid ws }
  | .newSite sid =>
      { st with store := ⟨st.store.visitor_logs, st.store.sites ++ [⟨sid, 0, 0⟩]⟩ }
  | .getSites => st
  | .getVisitors => st
  | .getCountryStats _ => st

/-- The state right after `server.js` finishes loading: all in-memory
containers empty (`new Map()`, `new Set()`, `new Map()`), store as given. -/
def initialServerState (store : Store) : ServerState :=
  ⟨[], [], [], store⟩

/-- `subscribersOf(siteId)`: the subscriber set consulted by the broadcast
(`connections.has` guard plus `connections.get`), empty when absent. -/
def subscribersOf (conns : Registry) (s : String) : List Conn :=
  (regGet conns s).getD []

/-- The key of a visitor-log row: the `onConflict: 'site_id,client_id'`
composite. -/
def keyOf (l : VisitLogEntry) : String × String :=
  (l.site_id, l.client_id)

/-- Well-formedness enforced by the unique index behind `onConflict`:
no two rows share a `(site_id, client_id)` key. -/
def WFlogs (logs : List VisitLogEntry) : Prop :=
  (logs.map keyOf).Nodup

instance (logs : List VisitLogEntry) : Decidable (WFlogs logs) := by
  unfold WFlogs
  infer_instance

lemma find?_map_if_self {α : Type} (p : α → Bool) (new : α)
    (hnew : p new = true) :
    ∀ l : List α, l.any p = true →
      (l.map (fun x => if p x then new else x)).find? p = some new := by
  intro l
  induction l with
  | nil => simp
  | cons x xs ih =>
      intro h
      by_cases hx : p x = true
      · simp only [List.map_cons, if_pos hx]
        exact List.find?_cons_of_pos _ hnew
      · have hx' : p x = false := by
          cases hpx : p x
          · rfl
          · exact absurd hpx hx
        have hxs : xs.any p = true := by
          simpa [List.any_cons, hx'] using h
        simp only [List.map_cons, if_neg hx]
        rw [List.find?_cons_of_neg _ (by simp [hx'])]
        exact ih hxs

lemma find?_map_if_ne {α : Type} (p q : α → Bool) (new : α)
    (hq : q new = false) (h : ∀ x, p x = true → q x = false) :
    ∀ l : List α, (l.map (fun x => if p x then new else x)).find? q = l.find? q := by
  intro l
  induction l with
  | nil => simp
  | cons x xs ih =>
      by_cases hx : p x = true
      · have hqx : q x = false := h x hx
        simp only [List.map_cons, if_pos hx]
        rw [List.find?_cons_of_neg _ (by simp [hq]),
          List.find?_cons_of_neg _ (by simp [hqx])]
        exact ih
      · simp only [List.map_cons, if_neg hx]
        cases hqx : q x
        · rw [List.find?_cons_of_neg _ (by simp [hqx]),
            List.find?_cons_of_neg _ (by simp [hqx])]
          exact ih
        · rw [List.find?_cons_of_pos _ hqx, List.find?_cons_of_pos _ hqx]

lemma find?_append_single_ne {α : Type} (q : α → Bool) (new : α)
    (hq : q new = false) (l : List α) :
    (l ++ [new]).find? q = l.find? q := by
  rw [List.find?_append]
  cases hl : l.find? q
  · simp [List.find?_cons, hq]
  · rfl

lemma find?_append_of_any_false {α : Type} (q : α → Bool) (l1 l2 : List α)
    (h : l1.any q = false) :
    (l1 ++ l2).find? q = l2.find? q := by
  rw [List.find?_append]
  have : l1.find? q = none := by
    rw [List.find?_eq_none]
    intro x hx
    have := List.any_eq_false.mp h x hx
    simpa using this
  rw [this]
  rfl

lemma mem_setAdd (s : List String) (x y : String) :
    y ∈ setAdd s x ↔ y ∈ s ∨ y = x := by
  unfold setAdd
  split
  · next h =>
      constructor
      · exact Or.inl
      · rintro (hy | rfl)
        · exact hy
        · exact h
  · simp

lemma nodup_setAdd (s : List String) (x : String) (h : s.Nodup) :
    (setAdd s x).Nodup := by
  unfold setAdd
  split
  · exact h
  · next hx => simp [List.nodup_append, h, hx]

lemma mem_foldl_setAdd :
    ∀ (l : List String) (init : List String) (y : String),
      y ∈ l.foldl setAdd init ↔ y ∈ init ∨ y ∈ l := by
  intro l
  induction l with
  | nil => simp
  | cons x xs ih =>
      intro init y
      simp only [List.foldl_cons, ih, mem_setAdd, List.mem_cons]
      constructor
      · rintro ((hy | rfl) | hy)
        · exact Or.inl hy
        · exact Or.inr (Or.inl rfl)
        · exact Or.inr (Or.inr hy)
      · rintro (hy | rfl | hy)
        · exact Or.inl (Or.inl hy)
        · exact Or.inl (Or.inr rfl)
        · exact Or.inr hy

lemma nodup_foldl_setAdd :
    ∀ (l : List String) (init : List String), init.Nodup →
      (l.foldl setAdd init).Nodup := by
  intro l
  induction l with
  | nil => exact fun _ h => h
  | cons x xs ih =>
      intro init h
      exact ih _ (nodup_setAdd _ _ h)

lemma length_foldl_setAdd (l : List String) (init : List String)
    (h : init.Nodup) :
    (l.foldl setAdd init).length = (init ++ l).dedup.length := by
  refine List.Perm.length_eq ?_
  refine (List.perm_ext_iff_of_nodup (nodup_foldl_setAdd l init h)
    (List.nodup_dedup _)).mpr ?_
  intro a
  rw [mem_foldl_setAdd, List.mem_dedup, List.mem_append]

lemma uniqueVisitors_eq_dedup (stats : List VisitLogEntry) :
    uniqueVisitors stats = (stats.map (fun s => s.client_id)).dedup.length := by
  unfold uniqueVisitors
  rw [length_foldl_setAdd _ [] List.nodup_nil, List.nil_append]

lemma foldl_add_eq_sum {α : Type} (f : α → Nat) :
    ∀ (l : List α) (n : Nat),
      l.foldl (fun s x => s + f x) n = n + (l.map f).sum := by
  intro l
  induction l with
  | nil => simp
  | cons x xs ih =>
      intro n
      simp only [List.foldl_cons, List.map_cons, List.sum_cons, ih,
        Nat.add_assoc]

lemma totalVisits_eq_sum (stats : List VisitLogEntry) :
    totalVisits stats = (stats.map (fun l => l.visit_count)).sum := by
  unfold totalVisits
  rw [foldl_add_eq_sum]
  simp

lemma objGet_objSet_self (m : List (String × CountryAcc)) (k : String)
    (v : CountryAcc) : objGet (objSet m k v) k = some v := by
  unfold objGet objSet
  by_cases h : m.any (fun p => p.1 == k) = true
  · rw [if_pos h, find?_map_if_self (fun p => p.1 == k) (k, v) (by simp) m h]
    rfl
  · rw [if_neg h,
      find?_append_of_any_false _ _ _ (by cases ha : m.any (fun p => p.1 == k)
        <;> simp_all)]
    simp [List.find?_cons]

lemma objGet_objSet_ne (m : List (String × CountryAcc)) (k : String)
    (v : CountryAcc) (c : String) (h : k ≠ c) :
    objGet (objSet m k v) c = objGet m c := by
  unfold objGet objSet
  split
  · rw [find?_map_if_ne (fun p => p.1 == k) (fun p => p.1 == c) (k, v)
      (by simp [h]) ?hpq]
    case hpq =>
      intro x hx
      have : x.1 = k := by simpa using hx
      simp [this, h]
  · rw [find?_append_single_ne (fun p => p.1 == c) (k, v) (by simp [h])]

lemma objGet_countryStep_self (acc : List (String × CountryAcc))
    (log : VisitLogEntry) :
    objGet (countryStep acc log) log.country =
      some ⟨((objGet acc log.country).getD ⟨0, []⟩).total + log.visit_count,
        setAdd ((objGet acc log.country).getD ⟨0, []⟩).unique log.client_id⟩ := by
  unfold countryStep
  exact objGet_objSet_self _ _ _

lemma objGet_countryStep_ne (acc : List (String × CountryAcc))
    (log : VisitLogEntry) (c : String) (h : log.country ≠ c) :
    objGet (countryStep acc log) c = objGet acc c := by
  unfold countryStep
  exact objGet_objSet_ne _ _ _ _ h

/-- The rows of one country: `rows with country == c`. -/
def countryRows (stats : List VisitLogEntry) (c : String) :
    List VisitLogEntry :=
  stats.filter (fun l => l.country == c)

lemma objGet_countryStats_foldl :
    ∀ (stats : List VisitLogEntry) (acc : List (String × CountryAcc))
      (c : String),
      objGet (stats.foldl countryStep acc) c =
        if countryRows stats c = [] then objGet acc c
        else some
          ⟨((objGet acc c).getD ⟨0, []⟩).total +
              ((countryRows stats c).map (fun l => l.visit_count)).sum,
            ((countryRows stats c).map (fun l => l.client_id)).foldl setAdd
              ((objGet acc c).getD ⟨0, []⟩).unique⟩ := by
  intro stats
  induction stats with
  | nil => intro acc c; simp [countryRows]
  | cons log rest ih =>
      intro acc c
      by_cases hcc : log.country = c
      · have hrows : countryRows (log :: rest) c = log :: countryRows rest c := by
          unfold countryRows
          rw [List.filter_cons_of_pos (by simp [hcc])]
        rw [List.foldl_cons, ih, hrows]
        have hself : objGet (countryStep acc log) c =
            some ⟨((objGet acc c).getD ⟨0, []⟩).total + log.visit_count,
              setAdd ((objGet acc c).getD ⟨0, []⟩).unique log.client_id⟩ := by
          rw [← hcc]
          exact objGet_countryStep_self acc log
        by_cases hr : countryRows rest c = []
        · simp [hr, hself]
        · simp [hr, hself, Nat.add_assoc]
      · have hrows : countryRows (log :: rest) c = countryRows rest c := by
          unfold countryRows
          rw [List.filter_cons_of_neg (by simp [hcc])]
        rw [List.foldl_cons, ih, hrows, objGet_countryStep_ne acc log c hcc]

lemma objGet_nil (c : String) : objGet [] c = none := rfl

lemma countryTotal_eq (stats : List VisitLogEntry) (c : String) :
    countryTotal stats c =
      ((countryRows stats c).map (fun l => l.visit_count)).sum := by
  unfold countryTotal countryStats
  rw [objGet_countryStats_foldl]
  by_cases hr : countryRows stats c = []
  · simp [hr, objGet_nil]
  · simp [hr, objGet_nil]

lemma countryUnique_eq (stats : List VisitLogEntry) (c : String) :
    countryUnique stats c =
      ((countryRows stats c).map (fun l => l.client_id)).dedup.length := by
  unfold countryUnique countryStats
  rw [objGet_countryStats_foldl]
  by_cases hr : countryRows stats c = []
  · simp [hr, objGet_nil]
  · simp only [if_neg hr, objGet_nil, Option.getD_some, Option.getD_none]
    rw [length_foldl_setAdd _ _ (by exact List.nodup_nil), List.nil_append]

lemma key_pred_iff (l : VisitLogEntry) (s c : String) :
    ((l.site_id == s && l.client_id == c) = true) ↔ keyOf l = (s, c) := by
  simp [keyOf, Prod.ext_iff]

lemma getVisitLog_upsertLog_self (logs : List VisitLogEntry)
    (e : VisitLogEntry) :
    getVisitLog (upsertLog logs e) e.site_id e.client_id = some e := by
  unfold getVisitLog upsertLog
  by_cases h :
      (logs.any fun l => l.site_id == e.site_id && l.client_id == e.client_id) =
        true
  · rw [if_pos h,
      find?_map_if_self (fun l => l.site_id == e.site_id && l.client_id == e.client_id)
        e (by simp) logs h]
  · rw [if_neg h,
      find?_append_of_any_false _ _ _
        (by cases ha :
            logs.any (fun l => l.site_id == e.site_id && l.client_id == e.client_id)
          <;> simp_all)]
    simp [List.find?_cons]

lemma mem_upsertLog_key (logs : List VisitLogEntry) (e : VisitLogEntry) :
    ∀ l ∈ upsertLog logs e, keyOf l = keyOf e → l = e := by
  intro l hl hkey
  unfold upsertLog at hl
  split at hl
  · next h =>
      obtain ⟨x, hx, hfx⟩ := List.mem_map.mp hl
      by_cases hpx : (x.site_id == e.site_id && x.client_id == e.client_id) = true
      · rw [if_pos hpx] at hfx
        exact hfx.symm
      · rw [if_neg hpx] at hfx
        subst hfx
        exact absurd ((key_pred_iff x e.site_id e.client_id).mpr hkey) hpx
  · next h =>
      rcases List.mem_append.mp hl with hmem | hmem
      · have hfalse :
            (logs.any (fun l =>
              l.site_id == e.site_id && l.client_id == e.client_id)) = false := by
          cases ha :
            logs.any (fun l =>
              l.site_id == e.site_id && l.client_id == e.client_id)
          · rfl
          · exact absurd ha h
        have := List.any_eq_false.mp hfalse l hmem
        exact absurd ((key_pred_iff l e.site_id e.client_id).mpr hkey)
          (by simpa using this)
      · simpa using hmem

lemma WFlogs_upsertLog (logs : List VisitLogEntry) (e : VisitLogEntry)
    (h : WFlogs logs) : WFlogs (upsertLog logs e) := by
  unfold WFlogs upsertLog
  split
  · next hany =>
      have : (logs.map fun l =>
          if l.site_id == e.site_id && l.client_id == e.client_id then e
          else l).map keyOf = logs.map keyOf := by
        rw [List.map_map]
        refine List.map_congr_left ?_
        intro x _
        by_cases hx : (x.site_id == e.site_id && x.client_id == e.client_id) = true
        · simp only [Function.comp_apply]
          rw [if_pos hx]
          exact ((key_pred_iff x e.site_id e.client_id).mp hx).symm
        · simp only [Function.comp_apply]
          rw [if_neg hx]
      rw [this]
      exact h
  · next hany =>
      have hne : keyOf e ∉ logs.map keyOf := by
        intro hmem
        obtain ⟨x, hx, hkx⟩ := List.mem_map.mp hmem
        have : (x.site_id == e.site_id && x.client_id == e.client_id) = true :=
          (key_pred_iff x e.site_id e.client_id).mpr (by rw [hkx]; rfl)
        exact hany (List.any_eq_true.mpr ⟨x, hx, this⟩)
      have h' : (logs.map keyOf).Nodup := h
      simp [List.nodup_append, h', hne]

lemma filter_key_length_le_one (logs : List VisitLogEntry) (s c : String)
    (h : WFlogs logs) :
    (logs.filter fun l => l.site_id == s && l.client_id == c).length ≤ 1 := by
  induction logs with
  | nil => simp
  | cons x xs ih =>
      have hwf : WFlogs xs := by
        unfold WFlogs at h ⊢
        exact (List.nodup_cons.mp (by simpa using h)).2
      rw [List.filter_cons]
      by_cases hx : (x.site_id == s && x.client_id == c) = true
      · rw [if_pos hx]
        have hempty : (xs.filter fun l => l.site_id == s && l.client_id == c) = [] := by
          rw [List.filter_eq_nil_iff]
          intro a ha hpa
          have hkx : keyOf x = (s, c) := (key_pred_iff x s c).mp hx
          have hka : keyOf a = (s, c) := (key_pred_iff a s c).mp hpa
          have hnotin : keyOf x ∉ xs.map keyOf :=
            (List.nodup_cons.mp (by simpa [WFlogs] using h)).1
          have hmemk : keyOf x ∈ xs.map keyOf := by
            rw [hkx, ← hka]
            exact List.mem_map_of_mem keyOf ha
          exact hnotin hmemk
        rw [hempty]
        simp
      · rw [if_neg hx]
        exact ih hwf

/-- `existingVisits?.visit_count || 0`: the stored count of a pair, `0` when
absent. -/
def prevCount (logs : List VisitLogEntry) (s c : String) : Nat :=
  match getVisitLog logs s c with
  | some e => e.visit_count
  | none => 0

/-- The `visitor_logs` table right after the upsert of a visit
`(s, c, co)` at time `now`. -/
def trackLogs (st : Store) (s c co : String) (now : Nat) :
    List VisitLogEntry :=
  upsertLog st.visitor_logs ⟨s, c, co, now, prevCount st.visitor_logs s c + 1⟩

/-- The row set the handler re-reads and aggregates after the upsert. -/
def trackStats (st : Store) (s c co : String) (now : Nat) :
    List VisitLogEntry :=
  listLogs (trackLogs st s c co now) s

/-- The fan-out block (lines 282–298 of `server.js`): serialize the update
once, send it to every subscriber of the site whose `readyState` is open. -/
def broadcastSends (conns : Registry) (s co : String)
    (stats : List VisitLogEntry) : List (Conn × String) :=
  match regGet conns s with
  | none => []
  | some set =>
      (set.filter fun cl => cl.readyState == WS_OPEN).map fun cl =>
        (cl, serializeUpdate
          ⟨totalVisits stats, uniqueVisitors stats, co, countryStatsWire stats⟩)

lemma trackVisit_eq (st : Store) (conns : Registry) (s c co : String)
    (now : Nat) (hs : s ≠ "") (hc : c ≠ "") (hco : co ≠ "") :
    trackVisit st conns (some s) (some c) (some co) now =
      ⟨⟨trackLogs st s c co now,
          updateSiteCounters st.sites s
            (totalVisits (trackStats st s c co now))
            (uniqueVisitors (trackStats st s c co now))⟩,
        broadcastSends conns s co (trackStats st s c co now),
        .ok ⟨totalVisits (trackStats st s c co now),
          uniqueVisitors (trackStats st s c co now),
          countryStatsWire (trackStats st s c co now)⟩⟩ := by
  have hs' : (s == "") = false := beq_eq_false_iff_ne.mpr hs
  have hc' : (c == "") = false := beq_eq_false_iff_ne.mpr hc
  have hco' : (co == "") = false := beq_eq_false_iff_ne.mpr hco
  unfold trackVisit trackVisitF
  rw [if_neg (by simp [truthy, hs', hc', hco'])]
  rfl

lemma mem_subscribersOf (conns : Registry) (s : String) (cl : Conn)
    (h : cl ∈ subscribersOf conns s) : ∃ e ∈ conns, cl ∈ e.2 := by
  unfold subscribersOf regGet at h
  cases hf : conns.find? (fun p => p.1 == s) with
  | none => rw [hf] at h; simp at h
  | some p =>
      rw [hf] at h
      exact ⟨p, List.mem_of_find?_eq_some hf, by simpa using h⟩

lemma mem_broadcastSends (conns : Registry) (s co : String)
    (stats : List VisitLogEntry) (cl : Conn) (p : String)
    (h : (cl, p) ∈ broadcastSends conns s co stats) :
    cl ∈ subscribersOf conns s ∧ cl.readyState = WS_OPEN ∧
      p = serializeUpdate
        ⟨totalVisits stats, uniqueVisitors stats, co, countryStatsWire stats⟩ := by
  unfold broadcastSends at h
  cases hreg : regGet conns s with
  | none => rw [hreg] at h; simp at h
  | some set =>
      rw [hreg] at h
      simp only [List.mem_map, List.mem_filter] at h
      obtain ⟨x, ⟨hxs, hxopen⟩, hpx⟩ := h
      cases hpx
      refine ⟨?_, by simpa using hxopen, rfl⟩
      unfold subscribersOf
      rw [hreg]
      simpa using hxs

lemma broadcastSends_complete (conns : Registry) (s co : String)
    (stats : List VisitLogEntry) (cl : Conn)
    (hcl : cl ∈ subscribersOf conns s) (hopen : cl.readyState = WS_OPEN) :
    (cl, serializeUpdate
        ⟨totalVisits stats, uniqueVisitors stats, co, countryStatsWire stats⟩) ∈
      broadcastSends conns s co stats := by
  unfold subscribersOf at hcl
  unfold broadcastSends
  cases hreg : regGet conns s with
  | none => rw [hreg] at hcl; simp at hcl
  | some set =>
      rw [hreg] at hcl
      simp only [Option.getD_some] at hcl
      exact List.mem_map.mpr
        ⟨cl, List.mem_filter.mpr ⟨hcl, by simp [hopen]⟩, rfl⟩

/-- Claim C1: the aggregation step of the `/track` handler is correct:
`totalVisits` is the sum of the rows' visit counts, `uniqueVisitors` is the
number of distinct client ids, the `countryStats` entry of a country `c`
carries the sum of visit counts and the number of distinct client ids of the
rows with country `c`, and the empty row set yields `total = 0`,
`unique = 0` and an empty `countryStats` object. -/
theorem aggregate_correct :
    (∀ (rows : List VisitLogEntry) (c : String),
      totalVisits rows = (rows.map (fun l => l.visit_count)).sum ∧
      uniqueVisitors rows = (rows.map (fun l => l.client_id)).dedup.length ∧
      countryTotal rows c =
        ((countryRows rows c).map (fun l => l.visit_count)).sum ∧
      countryUnique rows c =
        ((countryRows rows c).map (fun l => l.client_id)).dedup.length) ∧
    totalVisits [] = 0 ∧ uniqueVisitors [] = 0 ∧ countryStats [] = [] :=
  ⟨fun rows c =>
    ⟨totalVisits_eq_sum rows, uniqueVisitors_eq_dedup rows,
      countryTotal_eq rows c, countryUnique_eq rows c⟩,
    rfl, rfl, rfl⟩

/-- Claim C3: the read-increment-upsert sequence of the `/track` handler is
NOT serialized: scheduling two concurrent visits of the same client `c1` to
the same site `s1` as read-A, read-B, write-A, write-B makes both requests
read `existing count = 0` and both write `1`, so after both complete the
stored count is `1`, not `2` — a lost update.  The serial schedule of the
same two visits yields `2`, showing the loss comes from the interleaving. -/
theorem track_lost_update_interleaving :
    runSched [] [freshVisit "s1" "c1" "US" 0, freshVisit "s1" "c1" "US" 1]
        [0, 1, 0, 1] =
      ([⟨"s1", "c1", "US", 1, 1⟩],
        [⟨"s1", "c1", "US", 0, .finished⟩,
          ⟨"s1", "c1", "US", 1, .finished⟩]) ∧
    prevCount (runSched []
        [freshVisit "s1" "c1" "US" 0, freshVisit "s1" "c1" "US" 1]
        [0, 1, 0, 1]).1 "s1" "c1" = 1 ∧
    ¬ prevCount (runSched []
        [freshVisit "s1" "c1" "US" 0, freshVisit "s1" "c1" "US" 1]
        [0, 1, 0, 1]).1 "s1" "c1" = 2 ∧
    runSched [] [freshVisit "s1" "c1" "US" 0, freshVisit "s1" "c1" "US" 1]
        [0, 0, 1, 1] =
      ([⟨"s1", "c1", "US", 1, 2⟩],
        [⟨"s1", "c1", "US", 0, .finished⟩,
          ⟨"s1", "c1", "US", 1, .finished⟩]) := by
  decide

/-- Claim C5: when `siteId`, `clientId` or `country` is missing or empty,
the `/track` handler throws `Missing required parameters` before any
storage call: whatever the storage layer would do (`fail` arbitrary), the
result is the validation error, the store is unchanged and nothing is
broadcast. -/
theorem track_validation_rejects (fail : StorageOp → Bool) (st : Store)
    (conns : Registry) (siteId clientId country : Option String) (now : Nat)
    (h : truthy siteId = false ∨ truthy clientId = false ∨
      truthy country = false) :
    trackVisitF fail st conns siteId clientId country now =
      ⟨st, [], .error "Missing required parameters"⟩ := by
  unfold trackVisitF
  rw [if_pos (by rcases h with h | h | h <;> simp [h])]

/-- Witness for C5 at a concrete input: a request with no `siteId`. -/
theorem track_validation_rejects_witness :
    (truthy none = false ∨ truthy (some "c1") = false ∨
      truthy (some "US") = false) ∧
    trackVisitF (fun _ => false) ⟨[], []⟩ [] none (some "c1") (some "US") 3 =
      ⟨⟨[], []⟩, [], .error "Missing required parameters"⟩ :=
  ⟨Or.inl rfl,
    track_validation_rejects (fun _ => false) ⟨[], []⟩ [] none (some "c1")
      (some "US") 3 (Or.inl rfl)⟩

/-- Claim C10: the module-level `visitors` Map and `sites` Set are never
read or mutated: every handler and connection event preserves them exactly,
and starting from the freshly-loaded process state they stay empty under any
sequence of operations, so the only in-memory per-site state the handlers
touch is the `connections` registry. -/
theorem visitors_sites_containers_unused :
    (∀ (st : ServerState) (op : ServerOp),
      (applyOp st op).visitors = st.visitors ∧
      (applyOp st op).sites = st.sites) ∧
    (∀ (store : Store) (ops : List ServerOp),
      (ops.foldl applyOp (initialServerState store)).visitors = [] ∧
      (ops.foldl applyOp (initialServerState store)).sites = []) := by
  have hpres : ∀ (st : ServerState) (op : ServerOp),
      (applyOp st op).visitors = st.visitors ∧
      (applyOp st op).sites = st.sites := by
    intro st op
    cases op <;> exact ⟨rfl, rfl⟩
  refine ⟨hpres, ?_⟩
  have hfold : ∀ (ops : List ServerOp) (st : ServerState),
      (ops.foldl applyOp st).visitors = st.visitors ∧
      (ops.foldl applyOp st).sites = st.sites := by
    intro ops
    induction ops with
    | nil => intro st; exact ⟨rfl, rfl⟩
    | cons op rest ih =>
        intro st
        rw [List.foldl_cons]
        exact ⟨(ih (applyOp st op)).1.trans (hpres st op).1,
          (ih (applyOp st op)).2.trans (hpres st op).2⟩
  intro store ops
  exact hfold ops (initialServerState store)

/-- Claim C2: a valid `recordVisit` upserts on the `(site_id, client_id)`
key: the table keeps at most one row per pair (key well-formedness is
preserved), and the stored count for the pair becomes the previously stored
count plus one — `1` when no row existed, absence being a first-time
visitor, not an error. -/
theorem track_upsert_unique_increment (st : Store) (conns : Registry)
    (s c co : String) (now : Nat) (hwf : WFlogs st.visitor_logs)
    (hs : s ≠ "") (hc : c ≠ "") (hco : co ≠ "") :
    WFlogs
      (trackVisit st conns (some s) (some c) (some co) now).store.visitor_logs ∧
    ((trackVisit st conns (some s) (some c) (some co)
          now).store.visitor_logs.filter
        (fun l => l.site_id == s && l.client_id == c)).length ≤ 1 ∧
    getVisitLog
        (trackVisit st conns (some s) (some c) (some co) now).store.visitor_logs
        s c =
      some ⟨s, c, co, now, prevCount st.visitor_logs s c + 1⟩ := by
  rw [trackVisit_eq st conns s c co now hs hc hco]
  dsimp only
  refine ⟨WFlogs_upsertLog _ _ hwf, ?_, ?_⟩
  · exact filter_key_length_le_one _ _ _ (WFlogs_upsertLog _ _ hwf)
  · exact getVisitLog_upsertLog_self st.visitor_logs
      ⟨s, c, co, now, prevCount st.visitor_logs s c + 1⟩

/-- Witness for C2: a store holding one row for `("s1","c1")` with count 1;
a new visit stores count 2 and the key stays unique. -/
theorem track_upsert_unique_increment_witness :
    (WFlogs [⟨"s1", "c1", "US", 0, 1⟩] ∧ "s1" ≠ "" ∧ "c1" ≠ "" ∧
      "FR" ≠ "") ∧
    (WFlogs
      (trackVisit ⟨[⟨"s1", "c1", "US", 0, 1⟩], []⟩ [] (some "s1") (some "c1")
          (some "FR") 5).store.visitor_logs ∧
    ((trackVisit ⟨[⟨"s1", "c1", "US", 0, 1⟩], []⟩ [] (some "s1") (some "c1")
          (some "FR") 5).store.visitor_logs.filter
        (fun l => l.site_id == "s1" && l.client_id == "c1")).length ≤ 1 ∧
    getVisitLog
        (trackVisit ⟨[⟨"s1", "c1", "US", 0, 1⟩], []⟩ [] (some "s1")
            (some "c1") (some "FR") 5).store.visitor_logs "s1" "c1" =
      some ⟨"s1", "c1", "FR", 5,
        prevCount [⟨"s1", "c1", "US", 0, 1⟩] "s1" "c1" + 1⟩) :=
  ⟨⟨by decide, by decide, by decide, by decide⟩,
    track_upsert_unique_increment ⟨[⟨"s1", "c1", "US", 0, 1⟩], []⟩ [] "s1"
      "c1" "FR" 5 (by decide) (by decide) (by decide) (by decide)⟩

/-- Claim C6: a successful `/track` serializes exactly one wire payload —
the JSON of `{type:'update', stats:{total, unique, country: triggeringCountry,
countryStats}}` built from the freshly aggregated stats that the response
also carries — and every payload handed to a subscriber socket of the site
is that identical string, with every open subscriber receiving it. -/
theorem track_broadcast_identical_payload (st : Store) (conns : Registry)
    (s c co : String) (now : Nat) (hs : s ≠ "") (hc : c ≠ "")
    (hco : co ≠ "") :
    ∃ payload : String,
      (∃ stats : RespStats,
        (trackVisit st conns (some s) (some c) (some co) now).response =
          .ok stats ∧
        payload = serializeUpdate
          ⟨stats.total, stats.unique, co, stats.countryStats⟩) ∧
      (∀ p ∈ (trackVisit st conns (some s) (some c) (some co) now).sends,
        p.2 = payload) ∧
      (∀ cl ∈ subscribersOf conns s, cl.readyState = WS_OPEN →
        (cl, payload) ∈
          (trackVisit st conns (some s) (some c) (some co) now).sends) := by
  rw [trackVisit_eq st conns s c co now hs hc hco]
  dsimp only
  refine ⟨serializeUpdate
    ⟨totalVisits (trackStats st s c co now),
      uniqueVisitors (trackStats st s c co now), co,
      countryStatsWire (trackStats st s c co now)⟩, ⟨_, rfl, rfl⟩, ?_, ?_⟩
  · intro p hp
    have := mem_broadcastSends conns s co (trackStats st s c co now) p.1 p.2
      (by simpa using hp)
    exact this.2.2
  · intro cl hcl hopen
    exact broadcastSends_complete conns s co (trackStats st s c co now) cl
      hcl hopen

/-- Witness for C6: one open and one closed subscriber of site `s1`. -/
theorem track_broadcast_identical_payload_witness :
    ("s1" ≠ "" ∧ "c1" ≠ "" ∧ "US" ≠ "") ∧
    (∃ payload : String,
      (∃ stats : RespStats,
        (trackVisit ⟨[], []⟩ [("s1", [⟨0, 1⟩, ⟨1, 3⟩])] (some "s1")
            (some "c1") (some "US") 0).response = .ok stats ∧
        payload = serializeUpdate
          ⟨stats.total, stats.unique, "US", stats.countryStats⟩) ∧
      (∀ p ∈ (trackVisit ⟨[], []⟩ [("s1", [⟨0, 1⟩, ⟨1, 3⟩])] (some "s1")
          (some "c1") (some "US") 0).sends, p.2 = payload) ∧
      (∀ cl ∈ subscribersOf [("s1", [⟨0, 1⟩, ⟨1, 3⟩])] "s1",
        cl.readyState = WS_OPEN →
        (cl, payload) ∈ (trackVisit ⟨[], []⟩ [("s1", [⟨0, 1⟩, ⟨1, 3⟩])]
            (some "s1") (some "c1") (some "US") 0).sends)) :=
  ⟨⟨by decide, by decide, by decide⟩,
    track_broadcast_identical_payload ⟨[], []⟩ [("s1", [⟨0, 1⟩, ⟨1, 3⟩])]
      "s1" "c1" "US" 0 (by decide) (by decide) (by decide)⟩

/-- Claim C7: a subscriber whose socket is not open at broadcast time is
silently skipped: it receives nothing, every open subscriber of the site
still receives the update, and the `/track` call still succeeds (the
ingesting client gets the success response). -/
theorem track_closed_subscriber_skipped (st : Store) (conns : Registry)
    (s c co : String) (now : Nat) (hs : s ≠ "") (hc : c ≠ "")
    (hco : co ≠ "") :
    (∃ stats : RespStats,
      (trackVisit st conns (some s) (some c) (some co) now).response =
        .ok stats) ∧
    (∀ cl ∈ subscribersOf conns s, cl.readyState = WS_OPEN →
      ∃ payload,
        (cl, payload) ∈
          (trackVisit st conns (some s) (some c) (some co) now).sends) ∧
    (∀ cl : Conn, cl.readyState ≠ WS_OPEN → ∀ payload,
      (cl, payload) ∉
        (trackVisit st conns (some s) (some c) (some co) now).sends) := by
  rw [trackVisit_eq st conns s c co now hs hc hco]
  dsimp only
  refine ⟨⟨_, rfl⟩, ?_, ?_⟩
  · intro cl hcl hopen
    exact ⟨_, broadcastSends_complete conns s co (trackStats st s c co now)
      cl hcl hopen⟩
  · intro cl hclosed payload hmem
    exact hclosed
      (mem_broadcastSends conns s co (trackStats st s c co now) cl payload
        hmem).2.1

/-- Witness for C7: site `s1` has an open subscriber (id 0) and a closed
one (id 1, `readyState` 3): the call succeeds, the open one is served, the
closed one gets nothing. -/
theorem track_closed_subscriber_skipped_witness :
    ("s1" ≠ "" ∧ "c1" ≠ "" ∧ "US" ≠ "") ∧
    ((∃ stats : RespStats,
      (trackVisit ⟨[], []⟩ [("s1", [⟨0, 1⟩, ⟨1, 3⟩])] (some "s1") (some "c1")
          (some "US") 0).response = .ok stats) ∧
    (∀ cl ∈ subscribersOf [("s1", [⟨0, 1⟩, ⟨1, 3⟩])] "s1",
      cl.readyState = WS_OPEN →
      ∃ payload, (cl, payload) ∈ (trackVisit ⟨[], []⟩
          [("s1", [⟨0, 1⟩, ⟨1, 3⟩])] (some "s1") (some "c1")
          (some "US") 0).sends) ∧
    (∀ cl : Conn, cl.readyState ≠ WS_OPEN → ∀ payload,
      (cl, payload) ∉ (trackVisit ⟨[], []⟩ [("s1", [⟨0, 1⟩, ⟨1, 3⟩])]
          (some "s1") (some "c1") (some "US") 0).sends)) :=
  ⟨⟨by decide, by decide, by decide⟩,
    track_closed_subscriber_skipped ⟨[], []⟩ [("s1", [⟨0, 1⟩, ⟨1, 3⟩])] "s1"
      "c1" "US" 0 (by decide) (by decide) (by decide)⟩

/-- Claim C9: a WebSocket connection opened without a `siteId` query
parameter is accepted but never subscribed: the `connection` handler leaves
the registry unchanged, its `close` handler leaves the registry unchanged,
and no `/track` broadcast for any site ever hands a payload to that socket
(it is in no site's subscriber set). -/
theorem connection_without_siteId_never_subscribed (conns : Registry)
    (ws : Conn) (hws : ∀ e ∈ conns, ws ∉ e.2) :
    onConnection conns none ws = conns ∧
    onCloseWs conns none ws = conns ∧
    ∀ (st : Store) (s c co : String) (now : Nat),
      s ≠ "" → c ≠ "" → co ≠ "" → ∀ payload : String,
      (ws, payload) ∉
        (trackVisit st conns (some s) (some c) (some co) now).sends := by
  refine ⟨rfl, rfl, ?_⟩
  intro st s c co now hs hc hco payload hmem
  rw [trackVisit_eq st conns s c co now hs hc hco] at hmem
  dsimp only at hmem
  have hsub :=
    (mem_broadcastSends conns s co (trackStats st s c co now) ws payload
      hmem).1
  obtain ⟨e, he, hwse⟩ := mem_subscribersOf conns s ws hsub
  exact hws e he hwse

/-- Witness for C9: a registry holding one subscriber (id 7) for `s1`; a
socket with id 9 connecting without `siteId` changes nothing and receives
nothing. -/
theorem connection_without_siteId_never_subscribed_witness :
    (∀ e ∈ ([("s1", [⟨7, 1⟩])] : Registry), (⟨9, 1⟩ : Conn) ∉ e.2) ∧
    (onConnection [("s1", [⟨7, 1⟩])] none ⟨9, 1⟩ = [("s1", [⟨7, 1⟩])] ∧
    onCloseWs [("s1", [⟨7, 1⟩])] none ⟨9, 1⟩ = [("s1", [⟨7, 1⟩])] ∧
    ∀ (st : Store) (s c co : String) (now : Nat),
      s ≠ "" → c ≠ "" → co ≠ "" → ∀ payload : String,
      (⟨9, 1⟩, payload) ∉
        (trackVisit st [("s1", [⟨7, 1⟩])] (some s) (some c) (some co)
          now).sends) :=
  ⟨by decide,
    connection_without_siteId_never_subscribed [("s1", [⟨7, 1⟩])] ⟨9, 1⟩
      (by decide)⟩

/-- The failure injection used to exhibit a post-upsert storage failure:
only the full-log re-read (`listOp`) fails. -/
def failListOnly : StorageOp → Bool
  | .listOp => true
  | _ => false

/-- Counterexample to C4 as stated: on an empty `visitor_logs` table, a
visit whose full-log re-read fails is surfaced as an error with no
broadcast, BUT the upsert has already committed, so the row-derived
aggregate of the site (`totalVisits` over its rows) changed from 0 to 1 —
the failed ingestion did change the aggregates. -/
theorem track_list_failure_changes_aggregates :
    (trackVisitF failListOnly ⟨[], [⟨"s1", 0, 0⟩]⟩ [] (some "s1") (some "c1")
        (some "US") 0).response = .error "storage select failed" ∧
    (trackVisitF failListOnly ⟨[], [⟨"s1", 0, 0⟩]⟩ [] (some "s1") (some "c1")
        (some "US") 0).sends = [] ∧
    totalVisits (listLogs
        (trackVisitF failListOnly ⟨[], [⟨"s1", 0, 0⟩]⟩ [] (some "s1")
          (some "c1") (some "US") 0).store.visitor_logs "s1") = 1 ∧
    totalVisits (listLogs ([] : List VisitLogEntry) "s1") = 0 := by
  decide

/-- Claim C4 (amended): a storage failure in any of the four storage calls
of `/track` aborts all remaining steps, surfaces an error to the caller,
sends no broadcast, and never updates the site counters; the store is
entirely unchanged when the failing call is the existing-entry read or the
upsert itself, while a failure after a successful upsert leaves the
upserted visitor-log row committed. -/
theorem track_storage_failure_aborts (fail : StorageOp → Bool) (st : Store)
    (conns : Registry) (s c co : String) (now : Nat) (hs : s ≠ "")
    (hc : c ≠ "") (hco : co ≠ "")
    (hf : fail .readExisting = true ∨ fail .upsertOp = true ∨
      fail .listOp = true ∨ fail .counterUpdate = true) :
    (∃ msg, (trackVisitF fail st conns (some s) (some c) (some co)
        now).response = .error msg) ∧
    (trackVisitF fail st conns (some s) (some c) (some co) now).sends = [] ∧
    (trackVisitF fail st conns (some s) (some c) (some co)
        now).store.sites = st.sites ∧
    ((fail .readExisting = true ∨ fail .upsertOp = true) →
      (trackVisitF fail st conns (some s) (some c) (some co) now).store =
        st) ∧
    (fail .readExisting = false → fail .upsertOp = false →
      (trackVisitF fail st conns (some s) (some c) (some co)
          now).store.visitor_logs = trackLogs st s c co now) := by
  have hs' : (s == "") = false := beq_eq_false_iff_ne.mpr hs
  have hc' : (c == "") = false := beq_eq_false_iff_ne.mpr hc
  have hco' : (co == "") = false := beq_eq_false_iff_ne.mpr hco
  unfold trackVisitF
  rw [if_neg (by simp [truthy, hs', hc', hco'])]
  cases hR : fail .readExisting with
  | true =>
      exact ⟨⟨_, rfl⟩, rfl, rfl, fun _ => rfl,
        fun h _ => absurd h (by decide)⟩
  | false =>
      cases hU : fail .upsertOp with
      | true =>
          exact ⟨⟨_, rfl⟩, rfl, rfl, fun _ => rfl,
            fun _ h => absurd h (by decide)⟩
      | false =>
          cases hL : fail .listOp with
          | true =>
              refine ⟨⟨_, rfl⟩, rfl, rfl, ?_, fun _ _ => rfl⟩
              rintro (h | h)
              · exact absurd h (by simp [hR])
              · exact absurd h (by simp [hU])
          | false =>
              cases hC : fail .counterUpdate with
              | true =>
                  refine ⟨⟨_, rfl⟩, rfl, rfl, ?_, fun _ _ => rfl⟩
                  rintro (h | h)
                  · exact absurd h (by simp [hR])
                  · exact absurd h (by simp [hU])
              | false =>
                  rcases hf with h | h | h | h
                  · exact absurd h (by simp [hR])
                  · exact absurd h (by simp [hU])
                  · exact absurd h (by simp [hL])
                  · exact absurd h (by simp [hC])

/-- Witness for C4 (amended): the site-counter update fails on a store
holding one row: error surfaced, no sends, counters untouched, and the
upserted row committed. -/
theorem track_storage_failure_aborts_witness :
    ("s1" ≠ "" ∧ "c1" ≠ "" ∧ "US" ≠ "" ∧
      ((fun op => op == StorageOp.counterUpdate) StorageOp.readExisting =
          true ∨
        (fun op => op == StorageOp.counterUpdate) StorageOp.upsertOp = true ∨
        (fun op => op == StorageOp.counterUpdate) StorageOp.listOp = true ∨
        (fun op => op == StorageOp.counterUpdate) StorageOp.counterUpdate =
          true)) ∧
    ((∃ msg, (trackVisitF (fun op => op == StorageOp.counterUpdate)
        ⟨[], [⟨"s1", 0, 0⟩]⟩ [] (some "s1") (some "c1") (some "US")
        0).response = .error msg) ∧
    (trackVisitF (fun op => op == StorageOp.counterUpdate)
        ⟨[], [⟨"s1", 0, 0⟩]⟩ [] (some "s1") (some "c1") (some "US")
        0).sends = [] ∧
    (trackVisitF (fun op => op == StorageOp.counterUpdate)
        ⟨[], [⟨"s1", 0, 0⟩]⟩ [] (some "s1") (some "c1") (some "US")
        0).store.sites = (⟨[], [⟨"s1", 0, 0⟩]⟩ : Store).sites ∧
    (((fun op => op == StorageOp.counterUpdate) StorageOp.readExisting =
          true ∨
        (fun op => op == StorageOp.counterUpdate) StorageOp.upsertOp =
          true) →
      (trackVisitF (fun op => op == StorageOp.counterUpdate)
          ⟨[], [⟨"s1", 0, 0⟩]⟩ [] (some "s1") (some "c1") (some "US")
          0).store = ⟨[], [⟨"s1", 0, 0⟩]⟩) ∧
    ((fun op => op == StorageOp.counterUpdate) StorageOp.readExisting =
        false →
      (fun op => op == StorageOp.counterUpdate) StorageOp.upsertOp = false →
      (trackVisitF (fun op => op == StorageOp.counterUpdate)
          ⟨[], [⟨"s1", 0, 0⟩]⟩ [] (some "s1") (some "c1") (some "US")
          0).store.visitor_logs =
        trackLogs ⟨[], [⟨"s1", 0, 0⟩]⟩ "s1" "c1" "US" 0)) :=
  ⟨⟨by decide, by decide, by decide, by decide⟩,
    track_storage_failure_aborts (fun op => op == StorageOp.counterUpdate)
      ⟨[], [⟨"s1", 0, 0⟩]⟩ [] "s1" "c1" "US" 0 (by decide) (by decide)
      (by decide) (by decide)⟩

lemma sum_map_filter_partition {α : Type} (f : α → Nat) (p q : α → Bool) :
    ∀ l : List α,
      ((l.filter p).map f).sum =
        ((l.filter (fun x => p x && q x)).map f).sum +
          ((l.filter (fun x => p x && !q x)).map f).sum := by
  intro l
  induction l with
  | nil => simp
  | cons x xs ih =>
      by_cases hp : p x = true <;> by_cases hq : q x = true <;>
        simp [List.filter_cons, hp, hq, List.sum_cons, ih] <;> omega

lemma dedup_length_eq_of_mem_iff (l1 l2 : List String)
    (h : ∀ x, x ∈ l1 ↔ x ∈ l2) : l1.dedup.length = l2.dedup.length := by
  refine List.Perm.length_eq ?_
  refine (List.perm_ext_iff_of_nodup (List.nodup_dedup _)
    (List.nodup_dedup _)).mpr ?_
  intro a
  rw [List.mem_dedup, List.mem_dedup]
  exact h a

lemma dedup_length_append_singleton (l : List String) (x : String)
    (hx : x ∉ l) : (l ++ [x]).dedup.length = l.dedup.length + 1 := by
  have hperm : (l ++ [x]).dedup.Perm (l.dedup ++ [x]) := by
    refine (List.perm_ext_iff_of_nodup (List.nodup_dedup _) ?_).mpr ?_
    · simp [List.nodup_append, List.nodup_dedup, List.mem_dedup, hx]
    · intro a
      simp [List.mem_dedup, List.mem_append]
  have := hperm.length_eq
  simpa using this

lemma eq_singleton_of_length_le_one {α : Type} (l : List α) (x : α)
    (h : l.length ≤ 1) (hx : x ∈ l) : l = [x] := by
  match l, hx with
  | [y], hx => simp_all
  | y :: z :: rest, hx => simp at h

/-- The `visitor_logs` table after a client `c` of site `s` is tracked
twice: once with country `co1`, then with country `co2`. -/
def twoVisitLogs (st : Store) (conns1 conns2 : Registry) (s c co1 co2 : String)
    (n1 n2 : Nat) : List VisitLogEntry :=
  (trackVisit (trackVisit st conns1 (some s) (some c) (some co1) n1).store
      conns2 (some s) (some c) (some co2) n2).store.visitor_logs

lemma prevCount_trackLogs (st : Store) (s c co : String) (n : Nat) :
    prevCount (trackLogs st s c co n) s c = prevCount st.visitor_logs s c + 1 := by
  have hget : getVisitLog (trackLogs st s c co n) s c =
      some ⟨s, c, co, n, prevCount st.visitor_logs s c + 1⟩ :=
    getVisitLog_upsertLog_self st.visitor_logs _
  unfold prevCount
  rw [hget]
  rfl

lemma twoVisitLogs_eq (st : Store) (conns1 conns2 : Registry) (s c : String)
    (n1 n2 : Nat) (hs : s ≠ "") (hc : c ≠ "") :
    twoVisitLogs st conns1 conns2 s c "US" "FR" n1 n2 =
      upsertLog (trackLogs st s c "US" n1)
        ⟨s, c, "FR", n2, prevCount st.visitor_logs s c + 2⟩ := by
  unfold twoVisitLogs
  rw [trackVisit_eq st conns1 s c "US" n1 hs hc (by decide)]
  rw [trackVisit_eq _ conns2 s c "FR" n2 hs hc (by decide)]
  show upsertLog (trackLogs st s c "US" n1)
      ⟨s, c, "FR", n2, prevCount (trackLogs st s c "US" n1) s c + 1⟩ = _
  rw [prevCount_trackLogs]

lemma twoVisitLogs_WF (st : Store) (conns1 conns2 : Registry) (s c : String)
    (n1 n2 : Nat) (hs : s ≠ "") (hc : c ≠ "") (hwf : WFlogs st.visitor_logs) :
    WFlogs (twoVisitLogs st conns1 conns2 s c "US" "FR" n1 n2) := by
  rw [twoVisitLogs_eq st conns1 conns2 s c n1 n2 hs hc]
  exact WFlogs_upsertLog _ _ (WFlogs_upsertLog st.visitor_logs _ hwf)

lemma twoVisitLogs_entry (st : Store) (conns1 conns2 : Registry) (s c : String)
    (n1 n2 : Nat) (hs : s ≠ "") (hc : c ≠ "") :
    getVisitLog (twoVisitLogs st conns1 conns2 s c "US" "FR" n1 n2) s c =
      some ⟨s, c, "FR", n2, prevCount st.visitor_logs s c + 2⟩ := by
  rw [twoVisitLogs_eq st conns1 conns2 s c n1 n2 hs hc]
  exact getVisitLog_upsertLog_self _ _

lemma twoVisitLogs_client_is_FR (st : Store) (conns1 conns2 : Registry)
    (s c : String) (n1 n2 : Nat) (hs : s ≠ "") (hc : c ≠ "") :
    ∀ l ∈ twoVisitLogs st conns1 conns2 s c "US" "FR" n1 n2,
      l.site_id = s → l.client_id = c →
      l = ⟨s, c, "FR", n2, prevCount st.visitor_logs s c + 2⟩ := by
  rw [twoVisitLogs_eq st conns1 conns2 s c n1 n2 hs hc]
  intro l hl hsite hclient
  exact mem_upsertLog_key _ _ l hl (by simp [keyOf, hsite, hclient])

/-- Claim C8: a client of site `s` that visited with country `"US"` and
visits again with country `"FR"` ends with its single stored row holding
country `"FR"` and its full visit count (last-write-wins); in every
subsequently computed aggregate over the site's rows, dropping that client's
rows leaves `perCountry["US"]` unchanged (no remaining US contribution),
while `perCountry["FR"]` carries the client's entire visit count and its
unit of uniqueness on top of the other clients' FR stats. -/
theorem track_country_last_write_wins (st : Store) (conns1 conns2 : Registry)
    (s c : String) (n1 n2 : Nat) (hwf : WFlogs st.visitor_logs)
    (hs : s ≠ "") (hc : c ≠ "") :
    getVisitLog (twoVisitLogs st conns1 conns2 s c "US" "FR" n1 n2) s c =
      some ⟨s, c, "FR", n2, prevCount st.visitor_logs s c + 2⟩ ∧
    (∀ l ∈ listLogs (twoVisitLogs st conns1 conns2 s c "US" "FR" n1 n2) s,
      l.client_id = c → l.country = "FR") ∧
    countryTotal
        (listLogs (twoVisitLogs st conns1 conns2 s c "US" "FR" n1 n2) s)
        "US" =
      countryTotal
        ((listLogs (twoVisitLogs st conns1 conns2 s c "US" "FR" n1 n2)
            s).filter (fun l => !(l.client_id == c))) "US" ∧
    countryUnique
        (listLogs (twoVisitLogs st conns1 conns2 s c "US" "FR" n1 n2) s)
        "US" =
      countryUnique
        ((listLogs (twoVisitLogs st conns1 conns2 s c "US" "FR" n1 n2)
            s).filter (fun l => !(l.client_id == c))) "US" ∧
    countryTotal
        (listLogs (twoVisitLogs st conns1 conns2 s c "US" "FR" n1 n2) s)
        "FR" =
      countryTotal
        ((listLogs (twoVisitLogs st conns1 conns2 s c "US" "FR" n1 n2)
            s).filter (fun l => !(l.client_id == c))) "FR" +
        (prevCount st.visitor_logs s c + 2) ∧
    countryUnique
        (listLogs (twoVisitLogs st conns1 conns2 s c "US" "FR" n1 n2) s)
        "FR" =
      countryUnique
        ((listLogs (twoVisitLogs st conns1 conns2 s c "US" "FR" n1 n2)
            s).filter (fun l => !(l.client_id == c))) "FR" + 1 := by
  have hentry := twoVisitLogs_entry st conns1 conns2 s c n1 n2 hs hc
  have hckey := twoVisitLogs_client_is_FR st conns1 conns2 s c n1 n2 hs hc
  have hwf2 := twoVisitLogs_WF st conns1 conns2 s c n1 n2 hs hc hwf
  set e2 : VisitLogEntry :=
    ⟨s, c, "FR", n2, prevCount st.visitor_logs s c + 2⟩ with he2
  set L2 := twoVisitLogs st conns1 conns2 s c "US" "FR" n1 n2 with hL2
  set R := listLogs L2 s with hRdef
  have hmemR : ∀ l, l ∈ R → l ∈ L2 ∧ l.site_id = s := by
    intro l hl
    have hl' : l ∈ L2.filter (fun l => l.site_id == s) := hl
    obtain ⟨hmem, hsite⟩ := List.mem_filter.mp hl'
    exact ⟨hmem, by simpa using hsite⟩
  have hrow : ∀ l ∈ R, l.client_id = c → l = e2 := by
    intro l hl hcl
    obtain ⟨hmem, hsite⟩ := hmemR l hl
    exact hckey l hmem hsite hcl
  have hfind : L2.find? (fun l => l.site_id == s && l.client_id == c) =
      some e2 := hentry
  have he2R : e2 ∈ R := by
    have he2L2 : e2 ∈ L2 := List.mem_of_find?_eq_some hfind
    show e2 ∈ L2.filter (fun l => l.site_id == s)
    exact List.mem_filter.mpr ⟨he2L2, by simp [he2]⟩
  have hconj2 : ∀ l ∈ R, l.client_id = c → l.country = "FR" := by
    intro l hl hcl
    rw [hrow l hl hcl, he2]
  have hUScongr : ∀ a ∈ R, (a.country == "US") =
      ((a.country == "US") && !(a.client_id == c)) := by
    intro a ha
    by_cases hca : a.client_id = c
    · have ha2 : a = e2 := hrow a ha hca
      rw [ha2, he2]
      simp
    · have hfalse : (a.client_id == c) = false := beq_eq_false_iff_ne.mpr hca
      simp [hfalse]
  have hUSrows : countryRows R "US" =
      countryRows (R.filter (fun l => !(l.client_id == c))) "US" := by
    unfold countryRows
    rw [List.filter_filter]
    exact List.filter_congr hUScongr
  have hUSt : countryTotal R "US" =
      countryTotal (R.filter (fun l => !(l.client_id == c))) "US" := by
    rw [countryTotal_eq, countryTotal_eq, hUSrows]
  have hUSu : countryUnique R "US" =
      countryUnique (R.filter (fun l => !(l.client_id == c))) "US" := by
    rw [countryUnique_eq, countryUnique_eq, hUSrows]
  have he2Rpred :
      e2 ∈ R.filter (fun l => (l.country == "FR") && (l.client_id == c)) :=
    List.mem_filter.mpr ⟨he2R, by simp [he2]⟩
  have hsub :
      (R.filter (fun l => (l.country == "FR") && (l.client_id == c))).Sublist
        (L2.filter (fun l => l.site_id == s && l.client_id == c)) := by
    have hRfilter :
        R.filter (fun l => (l.country == "FR") && (l.client_id == c)) =
          L2.filter (fun a =>
            ((a.country == "FR") && (a.client_id == c)) &&
              (a.site_id == s)) := by
      show (L2.filter (fun l => l.site_id == s)).filter
          (fun l => (l.country == "FR") && (l.client_id == c)) = _
      exact List.filter_filter _ _
    rw [hRfilter]
    refine List.monotone_filter_right L2 ?_
    intro a ha
    simp only [Bool.and_eq_true] at ha ⊢
    exact ⟨ha.2, ha.1.2⟩
  have hlen :
      (R.filter
        (fun l => (l.country == "FR") && (l.client_id == c))).length ≤ 1 :=
    le_trans hsub.length_le (filter_key_length_le_one L2 s c hwf2)
  have hsingle :
      R.filter (fun l => (l.country == "FR") && (l.client_id == c)) = [e2] :=
    eq_singleton_of_length_le_one _ _ hlen he2Rpred
  have hA : (R.filter (fun l => !(l.client_id == c))).filter
      (fun l => l.country == "FR") =
        R.filter (fun l => (l.country == "FR") && !(l.client_id == c)) :=
    List.filter_filter _ _
  have hFRtotal : countryTotal R "FR" =
      countryTotal (R.filter (fun l => !(l.client_id == c))) "FR" +
        (prevCount st.visitor_logs s c + 2) := by
    rw [countryTotal_eq, countryTotal_eq]
    unfold countryRows
    have hpart :
        ((R.filter (fun l => l.country == "FR")).map
          (fun l => l.visit_count)).sum =
          ((R.filter (fun l => (l.country == "FR") && !(l.client_id == c))).map
            (fun l => l.visit_count)).sum +
          ((R.filter
              (fun l => (l.country == "FR") && !(!(l.client_id == c)))).map
            (fun l => l.visit_count)).sum :=
      sum_map_filter_partition (fun l => l.visit_count)
        (fun l => l.country == "FR") (fun l => !(l.client_id == c)) R
    have hB : R.filter
        (fun l => (l.country == "FR") && !(!(l.client_id == c))) = [e2] := by
      have hcongr : ∀ a ∈ R,
          ((a.country == "FR") && !(!(a.client_id == c))) =
            ((a.country == "FR") && (a.client_id == c)) := by
        intro a _
        simp
      rw [List.filter_congr hcongr]
      exact hsingle
    rw [hpart, hB, hA, he2]
    simp
  have hcnot : c ∉ (R.filter
      (fun l => (l.country == "FR") && !(l.client_id == c))).map
        (fun l => l.client_id) := by
    intro hmem
    obtain ⟨l, hl, hcl⟩ := List.mem_map.mp hmem
    obtain ⟨_, hpred⟩ := List.mem_filter.mp hl
    simp only [Bool.and_eq_true] at hpred
    exact absurd (by simp [hcl] : (l.client_id == c) = true)
      (by simpa using hpred.2)
  have hmemiff : ∀ x,
      x ∈ (R.filter (fun l => l.country == "FR")).map (fun l => l.client_id) ↔
        x ∈ (R.filter
            (fun l => (l.country == "FR") && !(l.client_id == c))).map
          (fun l => l.client_id) ++ [c] := by
    intro x
    constructor
    · intro hx
      obtain ⟨l, hl, hcl⟩ := List.mem_map.mp hx
      obtain ⟨hlR, hFR⟩ := List.mem_filter.mp hl
      by_cases hlc : l.client_id = c
      · rw [← hcl, hlc]
        exact List.mem_append_right _ (by simp)
      · refine List.mem_append_left _ ?_
        refine List.mem_map.mpr ⟨l, ?_, hcl⟩
        refine List.mem_filter.mpr ⟨hlR, ?_⟩
        simp [hFR, beq_eq_false_iff_ne.mpr hlc]
    · intro hx
      rcases List.mem_append.mp hx with hx | hx
      · obtain ⟨l, hl, hcl⟩ := List.mem_map.mp hx
        obtain ⟨hlR, hpred⟩ := List.mem_filter.mp hl
        simp only [Bool.and_eq_true] at hpred
        exact List.mem_map.mpr ⟨l, List.mem_filter.mpr ⟨hlR, hpred.1⟩, hcl⟩
      · have hxc : x = c := by simpa using hx
        subst hxc
        refine List.mem_map.mpr ⟨e2, List.mem_filter.mpr ⟨he2R, ?_⟩, ?_⟩
        · simp [he2]
        · simp [he2]
  have hFRunique : countryUnique R "FR" =
      countryUnique (R.filter (fun l => !(l.client_id == c))) "FR" + 1 := by
    rw [countryUnique_eq, countryUnique_eq]
    unfold countryRows
    rw [hA, dedup_length_eq_of_mem_iff _ _ hmemiff,
      dedup_length_append_singleton _ _ hcnot]
  exact ⟨hentry, hconj2, hUSt, hUSu, hFRtotal, hFRunique⟩

/-- Witness for C8: on an empty store, client `c1` visits site `s1` from
`"US"` then from `"FR"`. -/
theorem track_country_last_write_wins_witness :
    (WFlogs (⟨[], []⟩ : Store).visitor_logs ∧ "s1" ≠ "" ∧ "c1" ≠ "") ∧
    (getVisitLog (twoVisitLogs ⟨[], []⟩ [] [] "s1" "c1" "US" "FR" 0 1) "s1"
        "c1" =
      some ⟨"s1", "c1", "FR", 1,
        prevCount (⟨[], []⟩ : Store).visitor_logs "s1" "c1" + 2⟩ ∧
    (∀ l ∈ listLogs (twoVisitLogs ⟨[], []⟩ [] [] "s1" "c1" "US" "FR" 0 1)
        "s1", l.client_id = "c1" → l.country = "FR") ∧
    countryTotal
        (listLogs (twoVisitLogs ⟨[], []⟩ [] [] "s1" "c1" "US" "FR" 0 1) "s1")
        "US" =
      countryTotal
        ((listLogs (twoVisitLogs ⟨[], []⟩ [] [] "s1" "c1" "US" "FR" 0 1)
            "s1").filter (fun l => !(l.client_id == "c1"))) "US" ∧
    countryUnique
        (listLogs (twoVisitLogs ⟨[], []⟩ [] [] "s1" "c1" "US" "FR" 0 1) "s1")
        "US" =
      countryUnique
        ((listLogs (twoVisitLogs ⟨[], []⟩ [] [] "s1" "c1" "US" "FR" 0 1)
            "s1").filter (fun l => !(l.client_id == "c1"))) "US" ∧
    countryTotal
        (listLogs (twoVisitLogs ⟨[], []⟩ [] [] "s1" "c1" "US" "FR" 0 1) "s1")
        "FR" =
      countryTotal
        ((listLogs (twoVisitLogs ⟨[], []⟩ [] [] "s1" "c1" "US" "FR" 0 1)
            "s1").filter (fun l => !(l.client_id == "c1"))) "FR" +
        (prevCount (⟨[], []⟩ : Store).visitor_logs "s1" "c1" + 2) ∧
    countryUnique
        (listLogs (twoVisitLogs ⟨[], []⟩ [] [] "s1" "c1" "US" "FR" 0 1) "s1")
        "FR" =
      countryUnique
        ((listLogs (twoVisitLogs ⟨[], []⟩ [] [] "s1" "c1" "US" "FR" 0 1)
            "s1").filter (fun l => !(l.client_id == "c1"))) "FR" + 1) :=
  ⟨⟨by decide, by decide, by decide⟩,
    track_country_last_write_wins ⟨[], []⟩ [] [] "s1" "c1" 0 1 (by decide)
      (by decide) (by decide)⟩
